import Mathlib

set_option maxHeartbeats 1000000

namespace ShopERP

/-!
Shallow embedding of the Simple Shop ERP backend (`main.py`, `schemas.py`).

The document store is modelled as an explicit `Store` state holding one list
of `(id, document)` pairs per collection.  Monetary amounts are rationals,
quantities are integers, ids are strings.  Handlers become functions from a
`Store` and a request body to the resulting `Store` together with either an
`ApiError` (an `HTTPException` in the source) or the success payload.
-/

/-- A hexadecimal digit, upper or lower case (bson `ObjectId` alphabet). -/
def isHexChar (c : Char) : Bool :=
  c.isDigit || ('a' ≤ c && c ≤ 'f') || ('A' ≤ c && c ≤ 'F')

/-- Modelled from the spec: the store-native id format (`bson.ObjectId`,
an external collaborator of the code under `src/`): a well-formed id string
is 24 hexadecimal characters.  "Identifiers are store-native unique ids
surfaced to clients as opaque strings; an invalid-format id ... yields a
client error". -/
def isValidObjectId (s : String) : Bool :=
  s.length == 24 && s.data.all isHexChar

/-- Lower-casing, character by character. -/
def strLower (s : String) : String := String.mk (s.data.map Char.toLower)

/-- Modelled from the spec: parsing a well-formed id yields a canonical
(lower-case) store id; two id strings denote the same document iff their
canonical forms coincide. -/
def normId (s : String) : String := strLower s

/-- The errors raised by `main.py` via `HTTPException`, with the payload the
detail message carries (`productNotFound` names the offending product id,
`insufficientStock` the product's name; the other details are constant). -/
inductive ApiError where
  | invalidId
  | duplicateSku
  | productNotFound (product_id : String)
  | insufficientStock (name : String)
  | notFound
deriving DecidableEq

/-- The `status_code` each `HTTPException` in `main.py` is raised with. -/
def statusCode : ApiError → Nat
  | .invalidId => 400
  | .duplicateSku => 400
  | .productNotFound _ => 400
  | .insufficientStock _ => 400
  | .notFound => 404

/-- `oid` (main.py:42): parse an id string, HTTP 400 on invalid format. -/
def oid (s : String) : Except ApiError String :=
  if isValidObjectId s then .ok (normId s) else .error .invalidId

/-- `Product` (schemas.py). -/
structure Product where
  sku : String
  name : String
  description : Option String := none
  category : Option String := none
  price : Rat
  cost : Rat := 0
  quantity : Int := 0
  is_active : Bool := true
deriving DecidableEq

/-- `SaleItem` (schemas.py). -/
structure SaleItem where
  product_id : String
  sku : Option String := none
  name : Option String := none
  quantity : Int
  price : Rat
  line_total : Option Rat := none
deriving DecidableEq

/-- `Sale` (schemas.py). -/
structure Sale where
  customer_id : Option String := none
  items : List SaleItem
  subtotal : Option Rat := none
  tax : Option Rat := some 0
  total : Option Rat := none
  notes : Option String := none
deriving DecidableEq

/-- `PurchaseItem` (schemas.py). -/
structure PurchaseItem where
  product_id : String
  quantity : Int
  cost : Rat
  line_total : Option Rat := none
deriving DecidableEq

/-- `Purchase` (schemas.py). -/
structure Purchase where
  supplier_id : Option String := none
  items : List PurchaseItem
  subtotal : Option Rat := none
  tax : Option Rat := some 0
  total : Option Rat := none
  notes : Option String := none
deriving DecidableEq

/-- `StockMovement` (schemas.py). -/
structure StockMovement where
  product_id : String
  type : String
  quantity_change : Int
  reason : Option String := none
  ref_id : Option String := none
deriving DecidableEq

/-- The document store: one collection of `(id, document)` pairs per entity,
plus a counter from which fresh ids are generated. -/
structure Store where
  products : List (String × Product)
  sales : List (String × Sale)
  purchases : List (String × Purchase)
  stockmovements : List (String × StockMovement)
  nextId : Nat
deriving DecidableEq

/-- Modelled from the spec: the store assigns fresh, well-formed unique ids
("returns/accepts opaque document identifiers", "store-assigned unique
identifier"); rendered as 24 hex characters. -/
def genId (n : Nat) : String :=
  let ds := Nat.toDigits 16 n
  String.mk (List.replicate (24 - ds.length) '0' ++ ds)

/-- `db["product"].find_one({"_id": pid})`: first document whose id matches. -/
def dbFindProduct (st : Store) (pid : String) : Option Product :=
  (st.products.find? (fun pr => pr.1 == pid)).map Prod.snd

/-- `update_one` semantics: rewrite the first document whose id matches,
leave the rest alone (no-op when no id matches). -/
def updateFirst (f : Product → Product) (pid : String) :
    List (String × Product) → List (String × Product)
  | [] => []
  | pr :: rest =>
    if pr.1 == pid then (pr.1, f pr.2) :: rest else pr :: updateFirst f pid rest

/-- `db["product"].update_one({"_id": pid}, {"$inc": {"quantity": dq}})`. -/
def incProductQty (st : Store) (pid : String) (dq : Int) : Store :=
  { st with products := updateFirst (fun p => { p with quantity := p.quantity + dq }) pid st.products }

/-- Modelled from the spec: `database.create_document` (repository code not
under `src/`) inserts the document into the named collection under a fresh
store-assigned id and returns that id.  Specialisation to `product`. -/
def insertProduct (st : Store) (p : Product) : Store × String :=
  ({ st with products := st.products ++ [(genId st.nextId, p)], nextId := st.nextId + 1 },
   genId st.nextId)

/-- Modelled from the spec: `database.create_document` for `sale`. -/
def insertSale (st : Store) (s : Sale) : Store × String :=
  ({ st with sales := st.sales ++ [(genId st.nextId, s)], nextId := st.nextId + 1 },
   genId st.nextId)

/-- Modelled from the spec: `database.create_document` for `purchase`. -/
def insertPurchase (st : Store) (p : Purchase) : Store × String :=
  ({ st with purchases := st.purchases ++ [(genId st.nextId, p)], nextId := st.nextId + 1 },
   genId st.nextId)

/-- Modelled from the spec: `database.create_document` for `stockmovement`
(the handler discards the returned id). -/
def insertMovement (st : Store) (m : StockMovement) : Store :=
  { st with stockmovements := st.stockmovements ++ [(genId st.nextId, m)],
            nextId := st.nextId + 1 }

/-- `create_product` (main.py:50): reject when a stored product already has
the requested sku, otherwise insert and return the new id. -/
def create_product (st : Store) (p : Product) : Store × Except ApiError String :=
  match st.products.find? (fun pr => pr.2.sku == p.sku) with
  | some _ => (st, .error .duplicateSku)
  | none =>
    match insertProduct st p with
    | (st1, new_id) => (st1, .ok new_id)

/-- Executable check: `pat` is a prefix of `hay`. -/
def prefCheck : List Char → List Char → Bool
  | [], _ => true
  | _ :: _, [] => false
  | a :: pat, b :: hay => a == b && prefCheck pat hay

/-- Executable check: `pat` occurs as a contiguous run inside `hay`. -/
def substrCheck (pat : List Char) : List Char → Bool
  | [] => pat.isEmpty
  | c :: rest => prefCheck pat (c :: rest) || substrCheck pat rest

/-- Modelled from the spec: the store's `$regex .. $options "i"` query on one
field, for plain search terms: "optional free-text query matched
case-insensitively as a substring". -/
def ciContains (hay pat : String) : Bool :=
  substrCheck (strLower pat).data (strLower hay).data

/-- The `$or` filter `list_products` (main.py:60) builds: the term matches
the product's name, sku, or category (a missing category never matches). -/
def matchesQuery (qs : String) (p : Product) : Bool :=
  ciContains p.name qs || ciContains p.sku qs ||
    (match p.category with
     | some c => ciContains c qs
     | none => false)

/-- Modelled from the spec: `database.get_documents` applied to the filter of
`list_products` — matching documents in store order, truncated to `limit`
("optional result-count limit (default 100)").  An absent or empty term
(`if q:` in main.py:63) leaves the filter empty. -/
def list_products (st : Store) (q : Option String) (limit : Nat := 100) :
    List (String × Product) :=
  let docs :=
    match q with
    | none => st.products
    | some qs => if qs.isEmpty then st.products else st.products.filter (fun pr => matchesQuery qs pr.2)
  docs.take limit

/-- `delete_one` semantics: remove the first document whose id matches. -/
def removeFirst (pid : String) : List (String × Product) → List (String × Product)
  | [] => []
  | pr :: rest => if pr.1 == pid then rest else pr :: removeFirst pid rest

/-- `delete_product` (main.py:87): parse the id, delete the matching
document, HTTP 404 when nothing matched. -/
def delete_product (st : Store) (product_id : String) : Store × Except ApiError Unit :=
  match oid product_id with
  | .error e => (st, .error e)
  | .ok pid =>
    match dbFindProduct st pid with
    | none => (st, .error .notFound)
    | some _ => ({ st with products := removeFirst pid st.products }, .ok ())

/-- The line total the sale loop uses (main.py:138): the item's own
`line_total` when present, otherwise `quantity * price`. -/
def saleLineTotal (it : SaleItem) : Rat :=
  it.line_total.getD ((it.quantity : Rat) * it.price)

/-- The in-place mutation `item.line_total = ...` of the totals loop. -/
def processSaleItem (it : SaleItem) : SaleItem :=
  { it with line_total := some (saleLineTotal it) }

/-- `subtotal` accumulated by the totals loop of `create_sale`. -/
def saleSubtotal (sale : Sale) : Rat :=
  (sale.items.map processSaleItem).foldl (fun acc it => acc + it.line_total.getD 0) 0

/-- `tax = sale.tax or 0` (main.py:141). -/
def saleTax (sale : Sale) : Rat := sale.tax.getD 0

/-- The `Sale` document as persisted (items with filled line totals,
computed subtotal and total overwriting whatever the draft carried). -/
def saleDoc (sale : Sale) : Sale :=
  { sale with items := sale.items.map processSaleItem,
              subtotal := some (saleSubtotal sale),
              total := some (saleSubtotal sale + saleTax sale) }

/-- The `StockMovement` built for one sale item (main.py:161). -/
def mkSaleMovement (sale_id : String) (it : SaleItem) : StockMovement :=
  { product_id := it.product_id, type := "sale", quantity_change := -it.quantity,
    reason := some "Sale", ref_id := some sale_id }

/-- The read-only validation loop of `create_sale` (main.py:148): for each
item in order, parse the product id, require the product to exist and its
stock to cover the requested quantity. -/
def validateSaleItems (st : Store) : List SaleItem → Except ApiError Unit
  | [] => .ok ()
  | it :: rest =>
    match oid it.product_id with
    | .error e => .error e
    | .ok pid =>
      match dbFindProduct st pid with
      | none => .error (.productNotFound it.product_id)
      | some prod =>
        if prod.quantity < it.quantity then .error (.insufficientStock prod.name)
        else validateSaleItems st rest

/-- The mutation loop of `create_sale` (main.py:158): per item, decrement the
product's quantity and append a movement; `oid` is re-run and an exception
there stops the loop with the writes so far kept. -/
def saleMutate (sale_id : String) : Store → List SaleItem → Store × Option ApiError
  | st, [] => (st, none)
  | st, it :: rest =>
    match oid it.product_id with
    | .error e => (st, some e)
    | .ok pid =>
      saleMutate sale_id (insertMovement (incProductQty st pid (-it.quantity)) (mkSaleMovement sale_id it)) rest

/-- The success payload of `create_sale` / `create_purchase`. -/
structure LedgerResult where
  id : String
  subtotal : Rat
  tax : Rat
  total : Rat
deriving DecidableEq

/-- `create_sale` (main.py:134): fill line totals and compute totals, run the
read-only validation pass (abort with no writes on failure), then insert the
sale document and run the mutation loop. -/
def create_sale (st : Store) (sale : Sale) : Store × Except ApiError LedgerResult :=
  match validateSaleItems st (sale.items.map processSaleItem) with
  | .error e => (st, .error e)
  | .ok _ =>
    match insertSale st (saleDoc sale) with
    | (st1, sale_id) =>
      match saleMutate sale_id st1 (sale.items.map processSaleItem) with
      | (st2, some e) => (st2, .error e)
      | (st2, none) =>
        (st2, .ok ⟨sale_id, saleSubtotal sale, saleTax sale, saleSubtotal sale + saleTax sale⟩)

/-- The line total the purchase loop uses (main.py:177): the item's own
`line_total` when present, otherwise `quantity * cost`. -/
def purchaseLineTotal (it : PurchaseItem) : Rat :=
  it.line_total.getD ((it.quantity : Rat) * it.cost)

/-- The in-place `item.line_total = ...` of the purchase totals loop. -/
def processPurchaseItem (it : PurchaseItem) : PurchaseItem :=
  { it with line_total := some (purchaseLineTotal it) }

/-- `subtotal` accumulated by the totals loop of `create_purchase`. -/
def purchaseSubtotal (p : Purchase) : Rat :=
  (p.items.map processPurchaseItem).foldl (fun acc it => acc + it.line_total.getD 0) 0

/-- `tax = purchase.tax or 0` (main.py:180). -/
def purchaseTax (p : Purchase) : Rat := p.tax.getD 0

/-- The `Purchase` document as persisted. -/
def purchaseDoc (p : Purchase) : Purchase :=
  { p with items := p.items.map processPurchaseItem,
           subtotal := some (purchaseSubtotal p),
           total := some (purchaseSubtotal p + purchaseTax p) }

/-- The `StockMovement` built for one purchase item (main.py:191). -/
def mkPurchaseMovement (purchase_id : String) (it : PurchaseItem) : StockMovement :=
  { product_id := it.product_id, type := "purchase", quantity_change := it.quantity,
    reason := some "Purchase", ref_id := some purchase_id }

/-- The mutation loop of `create_purchase` (main.py:188): per item, parse the
id (an exception stops the loop, keeping earlier writes), increment the
product's quantity ($inc matches nothing for an unknown id) and append a
movement. -/
def purchaseMutate (purchase_id : String) : Store → List PurchaseItem → Store × Option ApiError
  | st, [] => (st, none)
  | st, it :: rest =>
    match oid it.product_id with
    | .error e => (st, some e)
    | .ok pid =>
      purchaseMutate purchase_id
        (insertMovement (incProductQty st pid it.quantity) (mkPurchaseMovement purchase_id it)) rest

/-- `create_purchase` (main.py:173): compute totals, insert the purchase
document, then run the mutation loop — no validation pass at all. -/
def create_purchase (st : Store) (p : Purchase) : Store × Except ApiError LedgerResult :=
  match insertPurchase st (purchaseDoc p) with
  | (st1, purchase_id) =>
    match purchaseMutate purchase_id st1 (p.items.map processPurchaseItem) with
    | (st2, some e) => (st2, .error e)
    | (st2, none) =>
      (st2, .ok ⟨purchase_id, purchaseSubtotal p, purchaseTax p, purchaseSubtotal p + purchaseTax p⟩)

/-- An item the validation pass of `create_sale` accepts: well-formed id,
existing product, sufficient stock. -/
def SaleItemOK (st : Store) (it : SaleItem) : Prop :=
  isValidObjectId it.product_id = true ∧
  ∃ prod, dbFindProduct st (normId it.product_id) = some prod ∧ it.quantity ≤ prod.quantity

/-- The spec's notion of a case-insensitive substring occurrence, stated
independently of the executable check: lower-cased, `pat` occurs contiguously
inside `hay`. -/
def SpecSubstrCI (pat hay : String) : Prop :=
  ∃ l r, (strLower hay).data = l ++ (strLower pat).data ++ r

/-- The spec's product search predicate: the term occurs case-insensitively
as a substring of the name, the sku, or the category. -/
def SpecProductMatch (qs : String) (p : Product) : Prop :=
  SpecSubstrCI qs p.name ∨ SpecSubstrCI qs p.sku ∨
    ∃ c, p.category = some c ∧ SpecSubstrCI qs c

/-! ### Concrete fixtures used by the witness theorems -/

def wPid1 : String := "0123456789abcdef01234567"

def wPid2 : String := "0123456789abcdef01234568"

def wPid3 : String := "0123456789abcdef01234569"

def wBadId : String := "zz"

def wProd1 : Product := { sku := "SKU1", name := "Widget", price := 5, cost := 2, quantity := 10 }

def wProd2 : Product := { sku := "SKU2", name := "Gadget", price := 3, cost := 1, quantity := 4 }

def wStore : Store :=
  { products := [(wPid1, wProd1), (wPid2, wProd2)], sales := [], purchases := [],
    stockmovements := [], nextId := 7 }

def wSaleOk : Sale := { items := [{ product_id := wPid1, quantity := 3, price := 5 }] }

def wSaleShort : Sale := { items := [{ product_id := wPid1, quantity := 30, price := 5 }] }

def wSaleMissing : Sale :=
  { items := [{ product_id := wPid3, quantity := 1, price := 5 }] }

def wSaleInvalid : Sale :=
  { items := [{ product_id := wPid1, quantity := 3, price := 5 },
              { product_id := wBadId, quantity := 1, price := 1 }] }

def wPurchase : Purchase :=
  { items := [{ product_id := wPid1, quantity := 2, cost := 1 },
              { product_id := wPid3, quantity := 5, cost := 1 }] }

def wPurchaseInvalid : Purchase :=
  { items := [{ product_id := wPid1, quantity := 2, cost := 1 },
              { product_id := wBadId, quantity := 1, cost := 1 }] }

def wItemDiv : SaleItem :=
  { product_id := wPid1, quantity := 3, price := 5, line_total := some 999 }

def wItemNone : SaleItem := { product_id := wPid1, quantity := 3, price := 5 }

def wPItemDiv : PurchaseItem :=
  { product_id := wPid1, quantity := 2, cost := 1, line_total := some 777 }

def wPItemNone : PurchaseItem := { product_id := wPid1, quantity := 2, cost := 1 }

def wProdDup : Product := { sku := "SKU1", name := "Clone", price := 9, quantity := 1 }

def wProdNew : Product := { sku := "SKU9", name := "Fresh", price := 9, quantity := 1 }

def wResSale : LedgerResult :=
  ⟨genId wStore.nextId, saleSubtotal wSaleOk, saleTax wSaleOk,
   saleSubtotal wSaleOk + saleTax wSaleOk⟩

def wStoreSale : Store :=
  (saleMutate (genId wStore.nextId) (insertSale wStore (saleDoc wSaleOk)).1 wSaleOk.items).1

def wResPurchase : LedgerResult :=
  ⟨genId wStore.nextId, purchaseSubtotal wPurchase, purchaseTax wPurchase,
   purchaseSubtotal wPurchase + purchaseTax wPurchase⟩

def wStorePurchase : Store :=
  (purchaseMutate (genId wStore.nextId) (insertPurchase wStore (purchaseDoc wPurchase)).1
    wPurchase.items).1

/-! ### Helper lemmas -/

theorem processSaleItem_product_id (it : SaleItem) :
    (processSaleItem it).product_id = it.product_id := rfl

theorem processSaleItem_quantity (it : SaleItem) :
    (processSaleItem it).quantity = it.quantity := rfl

theorem processPurchaseItem_product_id (it : PurchaseItem) :
    (processPurchaseItem it).product_id = it.product_id := rfl

theorem processPurchaseItem_quantity (it : PurchaseItem) :
    (processPurchaseItem it).quantity = it.quantity := rfl

theorem validateSaleItems_cons (st : Store) (it : SaleItem) (rest : List SaleItem) :
    validateSaleItems st (it :: rest) =
      match oid it.product_id with
      | .error e => .error e
      | .ok pid =>
        match dbFindProduct st pid with
        | none => .error (.productNotFound it.product_id)
        | some prod =>
          if prod.quantity < it.quantity then .error (.insufficientStock prod.name)
          else validateSaleItems st rest := rfl

theorem saleMutate_cons (sale_id : String) (st : Store) (it : SaleItem)
    (rest : List SaleItem) :
    saleMutate sale_id st (it :: rest) =
      match oid it.product_id with
      | .error e => (st, some e)
      | .ok pid =>
        saleMutate sale_id
          (insertMovement (incProductQty st pid (-it.quantity)) (mkSaleMovement sale_id it))
          rest := rfl

theorem purchaseMutate_cons (purchase_id : String) (st : Store) (it : PurchaseItem)
    (rest : List PurchaseItem) :
    purchaseMutate purchase_id st (it :: rest) =
      match oid it.product_id with
      | .error e => (st, some e)
      | .ok pid =>
        purchaseMutate purchase_id
          (insertMovement (incProductQty st pid it.quantity) (mkPurchaseMovement purchase_id it))
          rest := rfl

/-- Filling a line total changes no other field, so the validation and
mutation loops behave identically on processed and raw items. -/
theorem validate_map_process (st : Store) (items : List SaleItem) :
    validateSaleItems st (items.map processSaleItem) = validateSaleItems st items := by
  induction items with
  | nil => rfl
  | cons it rest ih =>
    rw [List.map_cons, validateSaleItems_cons, validateSaleItems_cons,
        processSaleItem_product_id]
    simp only [processSaleItem_quantity, ih]

theorem saleMutate_map_process (sid : String) (st : Store) (items : List SaleItem) :
    saleMutate sid st (items.map processSaleItem) = saleMutate sid st items := by
  induction items generalizing st with
  | nil => rfl
  | cons it rest ih =>
    rw [List.map_cons, saleMutate_cons, saleMutate_cons, processSaleItem_product_id]
    cases oid it.product_id with
    | error e => rfl
    | ok pid =>
      show saleMutate sid _ (rest.map processSaleItem) = _
      rw [ih]
      rfl

theorem purchaseMutate_map_process (pid : String) (st : Store) (items : List PurchaseItem) :
    purchaseMutate pid st (items.map processPurchaseItem) = purchaseMutate pid st items := by
  induction items generalizing st with
  | nil => rfl
  | cons it rest ih =>
    rw [List.map_cons, purchaseMutate_cons, purchaseMutate_cons, processPurchaseItem_product_id]
    cases oid it.product_id with
    | error e => rfl
    | ok q =>
      show purchaseMutate pid _ (rest.map processPurchaseItem) = _
      rw [ih]
      rfl

/-- `oid` on a well-formed id succeeds with the canonical id. -/
theorem oid_valid {s : String} (h : isValidObjectId s = true) :
    oid s = .ok (normId s) := by
  simp [oid, h]

theorem oid_invalid {s : String} (h : isValidObjectId s = false) :
    oid s = .error .invalidId := by
  simp [oid, h]

theorem updateFirst_find?_same (f : Product → Product) (pid : String)
    (l : List (String × Product)) :
    (updateFirst f pid l).find? (fun pr => pr.1 == pid) =
      (l.find? (fun pr => pr.1 == pid)).map (fun pr => (pr.1, f pr.2)) := by
  induction l with
  | nil => rfl
  | cons pr rest ih =>
    by_cases h : pr.1 = pid
    · simp [updateFirst, h]
    · simp [updateFirst, h, ih]

theorem updateFirst_find?_ne (f : Product → Product) {pid pid' : String}
    (h : pid' ≠ pid) (l : List (String × Product)) :
    (updateFirst f pid' l).find? (fun pr => pr.1 == pid) =
      l.find? (fun pr => pr.1 == pid) := by
  induction l with
  | nil => rfl
  | cons pr rest ih =>
    by_cases hp : pr.1 = pid'
    · simp [updateFirst, hp, h]
    · by_cases hq : pr.1 = pid
      · simp [updateFirst, hp, hq, Ne.symm h]
      · simp [updateFirst, hp, hq, ih]

theorem dbFind_inc_same (st : Store) (pid : String) (dq : Int) :
    dbFindProduct (incProductQty st pid dq) pid =
      (dbFindProduct st pid).map (fun p => { p with quantity := p.quantity + dq }) := by
  simp only [dbFindProduct, incProductQty, updateFirst_find?_same, Option.map_map]
  rfl

theorem dbFind_inc_ne (st : Store) {pid pid' : String} (h : pid' ≠ pid) (dq : Int) :
    dbFindProduct (incProductQty st pid' dq) pid = dbFindProduct st pid := by
  simp only [dbFindProduct, incProductQty, updateFirst_find?_ne _ h]

theorem dbFind_insertMovement (st : Store) (m : StockMovement) (pid : String) :
    dbFindProduct (insertMovement st m) pid = dbFindProduct st pid := rfl

/-- Accumulating line totals with a left fold is summing them. -/
theorem foldl_add_sum {α : Type} (g : α → Rat) (l : List α) (a : Rat) :
    l.foldl (fun acc it => acc + g it) a = a + (l.map g).sum := by
  induction l generalizing a with
  | nil => simp
  | cons x rest ih => simp [ih, add_assoc]

theorem saleSubtotal_eq_sum (sale : Sale) :
    saleSubtotal sale = (sale.items.map saleLineTotal).sum := by
  have h : ∀ items : List SaleItem,
      (items.map processSaleItem).foldl (fun acc it => acc + it.line_total.getD 0) 0 =
        ((items.map processSaleItem).map (fun it => it.line_total.getD 0)).sum := by
    intro items
    simpa using foldl_add_sum (fun it => it.line_total.getD 0) (items.map processSaleItem) 0
  have h2 : (sale.items.map processSaleItem).map (fun it => it.line_total.getD 0) =
      sale.items.map saleLineTotal := by
    simp only [List.map_map]
    rfl
  simp [saleSubtotal, h, h2]

theorem purchaseSubtotal_eq_sum (p : Purchase) :
    purchaseSubtotal p = (p.items.map purchaseLineTotal).sum := by
  have h : (p.items.map processPurchaseItem).foldl (fun acc it => acc + it.line_total.getD 0) 0 =
      ((p.items.map processPurchaseItem).map (fun it => it.line_total.getD 0)).sum := by
    simpa using foldl_add_sum (fun it => it.line_total.getD 0) (p.items.map processPurchaseItem) 0
  have h2 : (p.items.map processPurchaseItem).map (fun it => it.line_total.getD 0) =
      p.items.map purchaseLineTotal := by
    simp only [List.map_map]
    rfl
  simp [purchaseSubtotal, h, h2]

theorem validateSaleItems_ok (st : Store) {items : List SaleItem}
    (h : ∀ it ∈ items, SaleItemOK st it) :
    validateSaleItems st items = .ok () := by
  induction items with
  | nil => rfl
  | cons it rest ih =>
    obtain ⟨hv, prod, hfind, hq⟩ := h it (List.mem_cons_self it rest)
    rw [validateSaleItems_cons, oid_valid hv]
    simp only [hfind]
    rw [if_neg (not_lt.mpr hq)]
    exact ih (fun x hx => h x (List.mem_cons_of_mem it hx))

/-- Reductions of the loops at a well-formed head id. -/
theorem validateSaleItems_cons_valid (st : Store) {it : SaleItem}
    (hv : isValidObjectId it.product_id = true) (rest : List SaleItem) :
    validateSaleItems st (it :: rest) =
      match dbFindProduct st (normId it.product_id) with
      | none => .error (.productNotFound it.product_id)
      | some prod =>
        if prod.quantity < it.quantity then .error (.insufficientStock prod.name)
        else validateSaleItems st rest := by
  rw [validateSaleItems_cons, oid_valid hv]

theorem saleMutate_cons_valid (sid : String) (st : Store) {it : SaleItem}
    (hv : isValidObjectId it.product_id = true) (rest : List SaleItem) :
    saleMutate sid st (it :: rest) =
      saleMutate sid
        (insertMovement (incProductQty st (normId it.product_id) (-it.quantity))
          (mkSaleMovement sid it)) rest := by
  rw [saleMutate_cons, oid_valid hv]

theorem purchaseMutate_cons_valid (pid0 : String) (st : Store) {it : PurchaseItem}
    (hv : isValidObjectId it.product_id = true) (rest : List PurchaseItem) :
    purchaseMutate pid0 st (it :: rest) =
      purchaseMutate pid0
        (insertMovement (incProductQty st (normId it.product_id) it.quantity)
          (mkPurchaseMovement pid0 it)) rest := by
  rw [purchaseMutate_cons, oid_valid hv]

theorem saleMutate_cons_invalid (sid : String) (st : Store) {it : SaleItem}
    (hv : isValidObjectId it.product_id = false) (rest : List SaleItem) :
    saleMutate sid st (it :: rest) = (st, some .invalidId) := by
  rw [saleMutate_cons, oid_invalid hv]

theorem purchaseMutate_cons_invalid (pid0 : String) (st : Store) {it : PurchaseItem}
    (hv : isValidObjectId it.product_id = false) (rest : List PurchaseItem) :
    purchaseMutate pid0 st (it :: rest) = (st, some .invalidId) := by
  rw [purchaseMutate_cons, oid_invalid hv]

/-- First-failure behaviour of the validation pass: with every earlier item
accepted and the failing item's id well formed, a missing product yields
exactly `ProductNotFound` (naming the item's product id) and short stock
yields exactly `InsufficientStock` (naming the product). -/
theorem validate_append_fail (st : Store) : ∀ (pre : List SaleItem) (bad : SaleItem)
    (rest : List SaleItem),
    (∀ it ∈ pre, SaleItemOK st it) →
    isValidObjectId bad.product_id = true →
    ((dbFindProduct st (normId bad.product_id) = none →
        validateSaleItems st (pre ++ bad :: rest) =
          .error (.productNotFound bad.product_id)) ∧
     (∀ prod, dbFindProduct st (normId bad.product_id) = some prod →
        prod.quantity < bad.quantity →
        validateSaleItems st (pre ++ bad :: rest) =
          .error (.insufficientStock prod.name))) := by
  intro pre
  induction pre with
  | nil =>
    intro bad rest _ h_wf
    constructor
    · intro hnone
      rw [List.nil_append, validateSaleItems_cons_valid st h_wf]
      simp [hnone]
    · intro prod hfind hlt
      rw [List.nil_append, validateSaleItems_cons_valid st h_wf]
      simp [hfind, hlt]
  | cons hd tl ih =>
    intro bad rest h_pre h_wf
    obtain ⟨hv, prod0, hfind0, hq0⟩ := h_pre hd (List.mem_cons_self hd tl)
    have hstep : validateSaleItems st ((hd :: tl) ++ bad :: rest) =
        validateSaleItems st (tl ++ bad :: rest) := by
      rw [List.cons_append, validateSaleItems_cons_valid st hv]
      simp only [hfind0]
      rw [if_neg (not_lt.mpr hq0)]
    have hih := ih bad rest (fun x hx => h_pre x (List.mem_cons_of_mem hd hx)) h_wf
    constructor
    · intro hnone
      rw [hstep]
      exact hih.1 hnone
    · intro prod hfind hlt
      rw [hstep]
      exact hih.2 prod hfind hlt

/-- The sale/purchase mutation loops never touch the `sales` collection. -/
theorem saleMutate_sales (sid : String) (st : Store) (items : List SaleItem) :
    (saleMutate sid st items).1.sales = st.sales := by
  induction items generalizing st with
  | nil => rfl
  | cons it rest ih =>
    rw [saleMutate_cons]
    cases oid it.product_id with
    | error e => rfl
    | ok pid => exact ih _

theorem purchaseMutate_purchases (pid : String) (st : Store) (items : List PurchaseItem) :
    (purchaseMutate pid st items).1.purchases = st.purchases := by
  induction items generalizing st with
  | nil => rfl
  | cons it rest ih =>
    rw [purchaseMutate_cons]
    cases oid it.product_id with
    | error e => rfl
    | ok q => exact ih _

/-- With well-formed ids throughout, the sale mutation loop finishes without
an error and appends exactly one movement per item, in order. -/
theorem saleMutate_ok (sid : String) : ∀ (items : List SaleItem) (st : Store),
    (∀ it ∈ items, isValidObjectId it.product_id = true) →
    (saleMutate sid st items).2 = none := by
  intro items
  induction items with
  | nil => intro st _; rfl
  | cons it rest ih =>
    intro st h_wf
    rw [saleMutate_cons_valid sid st (h_wf it (List.mem_cons_self it rest))]
    exact ih _ (fun x hx => h_wf x (List.mem_cons_of_mem it hx))

theorem saleMutate_movements (sid : String) : ∀ (items : List SaleItem) (st : Store),
    (∀ it ∈ items, isValidObjectId it.product_id = true) →
    (saleMutate sid st items).1.stockmovements.map Prod.snd =
      st.stockmovements.map Prod.snd ++ items.map (mkSaleMovement sid) := by
  intro items
  induction items with
  | nil => intro st _; simp [saleMutate]
  | cons it rest ih =>
    intro st h_wf
    rw [saleMutate_cons_valid sid st (h_wf it (List.mem_cons_self it rest))]
    rw [ih _ (fun x hx => h_wf x (List.mem_cons_of_mem it hx))]
    simp [insertMovement, incProductQty]

theorem purchaseMutate_ok (pid : String) : ∀ (items : List PurchaseItem) (st : Store),
    (∀ it ∈ items, isValidObjectId it.product_id = true) →
    (purchaseMutate pid st items).2 = none := by
  intro items
  induction items with
  | nil => intro st _; rfl
  | cons it rest ih =>
    intro st h_wf
    rw [purchaseMutate_cons_valid pid st (h_wf it (List.mem_cons_self it rest))]
    exact ih _ (fun x hx => h_wf x (List.mem_cons_of_mem it hx))

theorem purchaseMutate_movements (pid : String) : ∀ (items : List PurchaseItem) (st : Store),
    (∀ it ∈ items, isValidObjectId it.product_id = true) →
    (purchaseMutate pid st items).1.stockmovements.map Prod.snd =
      st.stockmovements.map Prod.snd ++ items.map (mkPurchaseMovement pid) := by
  intro items
  induction items with
  | nil => intro st _; simp [purchaseMutate]
  | cons it rest ih =>
    intro st h_wf
    rw [purchaseMutate_cons_valid pid st (h_wf it (List.mem_cons_self it rest))]
    rw [ih _ (fun x hx => h_wf x (List.mem_cons_of_mem it hx))]
    simp [insertMovement, incProductQty]

/-- A product no item refers to is left untouched by the sale mutation loop
(also across an early invalid-id stop). -/
theorem saleMutate_find_notmem (sid : String) : ∀ (items : List SaleItem) (st : Store)
    {pid : String}, (∀ it ∈ items, normId it.product_id ≠ pid) →
    dbFindProduct (saleMutate sid st items).1 pid = dbFindProduct st pid := by
  intro items
  induction items with
  | nil => intro st pid _; rfl
  | cons it rest ih =>
    intro st pid h
    rw [saleMutate_cons]
    cases ho : oid it.product_id with
    | error e => rfl
    | ok q =>
      have hq : q = normId it.product_id := by
        unfold oid at ho
        by_cases hv : isValidObjectId it.product_id = true
        · rw [if_pos hv] at ho
          cases ho
          rfl
        · rw [if_neg hv] at ho
          cases ho
      show dbFindProduct (saleMutate sid
        (insertMovement (incProductQty st q (-it.quantity)) (mkSaleMovement sid it)) rest).1 pid =
        dbFindProduct st pid
      rw [ih _ (fun x hx => h x (List.mem_cons_of_mem it hx))]
      rw [dbFind_insertMovement]
      exact dbFind_inc_ne st (hq ▸ h it (List.mem_cons_self it rest)) _

theorem purchaseMutate_find_notmem (pid0 : String) : ∀ (items : List PurchaseItem)
    (st : Store) {pid : String}, (∀ it ∈ items, normId it.product_id ≠ pid) →
    dbFindProduct (purchaseMutate pid0 st items).1 pid = dbFindProduct st pid := by
  intro items
  induction items with
  | nil => intro st pid _; rfl
  | cons it rest ih =>
    intro st pid h
    rw [purchaseMutate_cons]
    cases ho : oid it.product_id with
    | error e => rfl
    | ok q =>
      have hq : q = normId it.product_id := by
        unfold oid at ho
        by_cases hv : isValidObjectId it.product_id = true
        · rw [if_pos hv] at ho
          cases ho
          rfl
        · rw [if_neg hv] at ho
          cases ho
      show dbFindProduct (purchaseMutate pid0
        (insertMovement (incProductQty st q it.quantity) (mkPurchaseMovement pid0 it)) rest).1 pid =
        dbFindProduct st pid
      rw [ih _ (fun x hx => h x (List.mem_cons_of_mem it hx))]
      rw [dbFind_insertMovement]
      exact dbFind_inc_ne st (hq ▸ h it (List.mem_cons_self it rest)) _

/-- With pairwise-distinct product references, the sale mutation loop changes
each referenced product's quantity by exactly minus the item's quantity. -/
theorem saleMutate_find_mem (sid : String) : ∀ (items : List SaleItem) (st : Store),
    (∀ it ∈ items, isValidObjectId it.product_id = true) →
    (items.map (fun it => normId it.product_id)).Nodup →
    ∀ it ∈ items, ∀ prod : Product,
    dbFindProduct st (normId it.product_id) = some prod →
    dbFindProduct (saleMutate sid st items).1 (normId it.product_id) =
      some { prod with quantity := prod.quantity + (-it.quantity) } := by
  intro items
  induction items with
  | nil => intro st _ _ it hit; cases hit
  | cons hd rest ih =>
    intro st h_wf h_nd it hit prod hfind
    rw [saleMutate_cons_valid sid st (h_wf hd (List.mem_cons_self hd rest))]
    rcases List.mem_cons.mp hit with heq | hmem
    · subst heq
      have hrest : ∀ x ∈ rest, normId x.product_id ≠ normId it.product_id := by
        intro x hx hcontra
        apply (List.nodup_cons.mp h_nd).1
        show normId it.product_id ∈ rest.map (fun i => normId i.product_id)
        rw [← hcontra]
        exact List.mem_map_of_mem _ hx
      rw [saleMutate_find_notmem sid rest _ hrest, dbFind_insertMovement, dbFind_inc_same,
        hfind]
      rfl
    · have hne : normId hd.product_id ≠ normId it.product_id := by
        intro hcontra
        apply (List.nodup_cons.mp h_nd).1
        show normId hd.product_id ∈ rest.map (fun i => normId i.product_id)
        rw [hcontra]
        exact List.mem_map_of_mem _ hmem
      have hfind' : dbFindProduct
          (insertMovement (incProductQty st (normId hd.product_id) (-hd.quantity))
            (mkSaleMovement sid hd)) (normId it.product_id) = some prod := by
        rw [dbFind_insertMovement, dbFind_inc_ne st hne, hfind]
      exact ih _ (fun x hx => h_wf x (List.mem_cons_of_mem hd hx))
        (List.nodup_cons.mp h_nd).2 it hmem prod hfind'

theorem purchaseMutate_find_mem (pid0 : String) : ∀ (items : List PurchaseItem) (st : Store),
    (∀ it ∈ items, isValidObjectId it.product_id = true) →
    (items.map (fun it => normId it.product_id)).Nodup →
    ∀ it ∈ items, ∀ prod : Product,
    dbFindProduct st (normId it.product_id) = some prod →
    dbFindProduct (purchaseMutate pid0 st items).1 (normId it.product_id) =
      some { prod with quantity := prod.quantity + it.quantity } := by
  intro items
  induction items with
  | nil => intro st _ _ it hit; cases hit
  | cons hd rest ih =>
    intro st h_wf h_nd it hit prod hfind
    rw [purchaseMutate_cons_valid pid0 st (h_wf hd (List.mem_cons_self hd rest))]
    rcases List.mem_cons.mp hit with heq | hmem
    · subst heq
      have hrest : ∀ x ∈ rest, normId x.product_id ≠ normId it.product_id := by
        intro x hx hcontra
        apply (List.nodup_cons.mp h_nd).1
        show normId it.product_id ∈ rest.map (fun i => normId i.product_id)
        rw [← hcontra]
        exact List.mem_map_of_mem _ hx
      rw [purchaseMutate_find_notmem pid0 rest _ hrest, dbFind_insertMovement,
        dbFind_inc_same, hfind]
      rfl
    · have hne : normId hd.product_id ≠ normId it.product_id := by
        intro hcontra
        apply (List.nodup_cons.mp h_nd).1
        show normId hd.product_id ∈ rest.map (fun i => normId i.product_id)
        rw [hcontra]
        exact List.mem_map_of_mem _ hmem
      have hfind' : dbFindProduct
          (insertMovement (incProductQty st (normId hd.product_id) hd.quantity)
            (mkPurchaseMovement pid0 hd)) (normId it.product_id) = some prod := by
        rw [dbFind_insertMovement, dbFind_inc_ne st hne, hfind]
      exact ih _ (fun x hx => h_wf x (List.mem_cons_of_mem hd hx))
        (List.nodup_cons.mp h_nd).2 it hmem prod hfind'

/-- A product missing before the purchase mutation loop is still missing
afterwards: the `$inc` against it matches no document. -/
theorem purchaseMutate_find_none (pid0 : String) : ∀ (items : List PurchaseItem)
    (st : Store) {pid : String}, dbFindProduct st pid = none →
    dbFindProduct (purchaseMutate pid0 st items).1 pid = none := by
  intro items
  induction items with
  | nil => intro st pid hnone; exact hnone
  | cons hd rest ih =>
    intro st pid hnone
    rw [purchaseMutate_cons]
    cases oid hd.product_id with
    | error e => exact hnone
    | ok q =>
      show dbFindProduct (purchaseMutate pid0
        (insertMovement (incProductQty st q hd.quantity) (mkPurchaseMovement pid0 hd)) rest).1
        pid = none
      refine ih _ ?_
      rw [dbFind_insertMovement]
      by_cases h : q = pid
      · subst h
        rw [dbFind_inc_same, hnone]
        rfl
      · rw [dbFind_inc_ne st h]
        exact hnone

/-- A validation-pass failure aborts `create_sale` with the store unchanged. -/
theorem create_sale_validation_error {st : Store} {sale : Sale} {e : ApiError}
    (h : validateSaleItems st sale.items = .error e) :
    create_sale st sale = (st, .error e) := by
  unfold create_sale
  rw [validate_map_process, h]

/-- On a draft the validation pass accepts, `create_sale` inserts the sale
document, runs the mutation loop over the items, and reports the computed
totals. -/
theorem create_sale_eq_ok {st : Store} {sale : Sale}
    (h_ok : ∀ it ∈ sale.items, SaleItemOK st it) :
    create_sale st sale =
      ((saleMutate (genId st.nextId) (insertSale st (saleDoc sale)).1 sale.items).1,
       .ok ⟨genId st.nextId, saleSubtotal sale, saleTax sale,
            saleSubtotal sale + saleTax sale⟩) := by
  have h_wf : ∀ it ∈ sale.items, isValidObjectId it.product_id = true :=
    fun it hit => (h_ok it hit).1
  have hval : validateSaleItems st (sale.items.map processSaleItem) = .ok () := by
    rw [validate_map_process]
    exact validateSaleItems_ok st h_ok
  have hred : create_sale st sale =
      match saleMutate (genId st.nextId) (insertSale st (saleDoc sale)).1
          (sale.items.map processSaleItem) with
      | (st2, some e) => (st2, .error e)
      | (st2, none) =>
        (st2, .ok ⟨genId st.nextId, saleSubtotal sale, saleTax sale,
                   saleSubtotal sale + saleTax sale⟩) := by
    unfold create_sale
    rw [hval]
    rfl
  rw [hred, saleMutate_map_process]
  cases hm : saleMutate (genId st.nextId) (insertSale st (saleDoc sale)).1 sale.items with
  | mk st2 err =>
    cases err with
    | none => simp
    | some e =>
      have hnone := saleMutate_ok (genId st.nextId) sale.items
        (insertSale st (saleDoc sale)).1 h_wf
      rw [hm] at hnone
      cases hnone

/-- With every product id well formed, `create_purchase` inserts the purchase
document, runs the mutation loop, and reports the computed totals. -/
theorem create_purchase_eq_ok {st : Store} {p : Purchase}
    (h_wf : ∀ it ∈ p.items, isValidObjectId it.product_id = true) :
    create_purchase st p =
      ((purchaseMutate (genId st.nextId) (insertPurchase st (purchaseDoc p)).1 p.items).1,
       .ok ⟨genId st.nextId, purchaseSubtotal p, purchaseTax p,
            purchaseSubtotal p + purchaseTax p⟩) := by
  have hred : create_purchase st p =
      match purchaseMutate (genId st.nextId) (insertPurchase st (purchaseDoc p)).1
          (p.items.map processPurchaseItem) with
      | (st2, some e) => (st2, .error e)
      | (st2, none) =>
        (st2, .ok ⟨genId st.nextId, purchaseSubtotal p, purchaseTax p,
                   purchaseSubtotal p + purchaseTax p⟩) := rfl
  rw [hred, purchaseMutate_map_process]
  cases hm : purchaseMutate (genId st.nextId) (insertPurchase st (purchaseDoc p)).1 p.items with
  | mk st2 err =>
    cases err with
    | none => simp
    | some e =>
      have hnone := purchaseMutate_ok (genId st.nextId) p.items
        (insertPurchase st (purchaseDoc p)).1 h_wf
      rw [hm] at hnone
      cases hnone

/-- The purchase mutation loop stops at the first ill-formed id, keeping the
writes made for the earlier items. -/
theorem purchaseMutate_append_invalid (pid0 : String) : ∀ (pre : List PurchaseItem)
    (st : Store) {bad : PurchaseItem} (rest : List PurchaseItem),
    (∀ it ∈ pre, isValidObjectId it.product_id = true) →
    isValidObjectId bad.product_id = false →
    purchaseMutate pid0 st (pre ++ bad :: rest) =
      ((purchaseMutate pid0 st pre).1, some .invalidId) := by
  intro pre
  induction pre with
  | nil =>
    intro st bad rest _ hbad
    rw [List.nil_append, purchaseMutate_cons_invalid pid0 st hbad rest]
    rfl
  | cons hd tl ih =>
    intro st bad rest h_wf hbad
    have hv := h_wf hd (List.mem_cons_self hd tl)
    rw [List.cons_append, purchaseMutate_cons_valid pid0 st hv,
      ih _ rest (fun x hx => h_wf x (List.mem_cons_of_mem hd hx)) hbad,
      purchaseMutate_cons_valid pid0 st hv]

/-- The sale validation pass rejects the first ill-formed id it reaches. -/
theorem validate_append_invalid (st : Store) : ∀ (pre : List SaleItem) {bad : SaleItem}
    (rest : List SaleItem),
    (∀ it ∈ pre, SaleItemOK st it) →
    isValidObjectId bad.product_id = false →
    validateSaleItems st (pre ++ bad :: rest) = .error .invalidId := by
  intro pre
  induction pre with
  | nil =>
    intro bad rest _ hbad
    rw [List.nil_append, validateSaleItems_cons, oid_invalid hbad]
  | cons hd tl ih =>
    intro bad rest h_ok hbad
    obtain ⟨hv, prod, hfind, hq⟩ := h_ok hd (List.mem_cons_self hd tl)
    rw [List.cons_append, validateSaleItems_cons_valid st hv]
    simp only [hfind]
    rw [if_neg (not_lt.mpr hq)]
    exact ih rest (fun x hx => h_ok x (List.mem_cons_of_mem hd hx)) hbad

/-- `create_purchase` on a draft whose items contain an ill-formed id after a
well-formed run: the purchase document and the earlier items' writes are
kept, and the invalid-id error surfaces from the mutation loop. -/
theorem create_purchase_invalid {st : Store} {p : Purchase} {pre rest : List PurchaseItem}
    {bad : PurchaseItem} (hitems : p.items = pre ++ bad :: rest)
    (h_wf : ∀ it ∈ pre, isValidObjectId it.product_id = true)
    (hbad : isValidObjectId bad.product_id = false) :
    create_purchase st p =
      ((purchaseMutate (genId st.nextId) (insertPurchase st (purchaseDoc p)).1 pre).1,
       .error .invalidId) := by
  have hred : create_purchase st p =
      match purchaseMutate (genId st.nextId) (insertPurchase st (purchaseDoc p)).1
          (p.items.map processPurchaseItem) with
      | (st2, some e) => (st2, .error e)
      | (st2, none) =>
        (st2, .ok ⟨genId st.nextId, purchaseSubtotal p, purchaseTax p,
                   purchaseSubtotal p + purchaseTax p⟩) := rfl
  rw [hred, purchaseMutate_map_process, hitems,
    purchaseMutate_append_invalid (genId st.nextId) pre _ rest h_wf hbad]

/-! ### Substring check vs the spec predicate -/

theorem prefCheck_iff : ∀ (pat hay : List Char),
    prefCheck pat hay = true ↔ ∃ r, hay = pat ++ r := by
  intro pat
  induction pat with
  | nil =>
    intro hay
    constructor
    · intro _
      exact ⟨hay, rfl⟩
    · intro _
      rfl
  | cons a pat ih =>
    intro hay
    cases hay with
    | nil =>
      constructor
      · intro h
        cases h
      · rintro ⟨r, hr⟩
        cases hr
    | cons b hay =>
      show (a == b && prefCheck pat hay) = true ↔ _
      rw [Bool.and_eq_true, beq_iff_eq, ih]
      constructor
      · rintro ⟨rfl, r, rfl⟩
        exact ⟨r, rfl⟩
      · rintro ⟨r, hr⟩
        rw [List.cons_append] at hr
        injection hr with h1 h2
        exact ⟨h1.symm, r, h2⟩

theorem substrCheck_iff : ∀ (hay pat : List Char),
    substrCheck pat hay = true ↔ ∃ l r, hay = l ++ pat ++ r := by
  intro hay
  induction hay with
  | nil =>
    intro pat
    show pat.isEmpty = true ↔ _
    cases pat with
    | nil => simp
    | cons x pat => simp
  | cons c rest ih =>
    intro pat
    show (prefCheck pat (c :: rest) || substrCheck pat rest) = true ↔ _
    rw [Bool.or_eq_true, prefCheck_iff, ih]
    constructor
    · rintro (⟨r, hr⟩ | ⟨l, r, hr⟩)
      · exact ⟨[], r, by simpa using hr⟩
      · refine ⟨c :: l, r, ?_⟩
        rw [hr]
        rfl
    · rintro ⟨l, r, hr⟩
      cases l with
      | nil => exact .inl ⟨r, by simpa using hr⟩
      | cons x l =>
        injection hr with h1 h2
        exact .inr ⟨l, r, h2⟩

theorem substrCheck_nil_pat : ∀ hay : List Char, substrCheck [] hay = true := by
  intro hay
  cases hay with
  | nil => rfl
  | cons c rest => rfl

theorem matchesQuery_iff (qs : String) (p : Product) :
    matchesQuery qs p = true ↔ SpecProductMatch qs p := by
  unfold matchesQuery SpecProductMatch
  cases hc : p.category with
  | none => simp [ciContains, substrCheck_iff, SpecSubstrCI]
  | some c => simp [ciContains, substrCheck_iff, SpecSubstrCI, or_assoc]

theorem matchesQuery_empty (p : Product) : matchesQuery "" p = true := by
  have h0 : (strLower "").data = [] := rfl
  simp [matchesQuery, ciContains, h0, substrCheck_nil_pat]

/-! ### Inversion of successful handler runs -/

theorem create_sale_ok_inv {st st' : Store} {sale : Sale} {res : LedgerResult}
    (h : create_sale st sale = (st', .ok res)) :
    res = ⟨genId st.nextId, saleSubtotal sale, saleTax sale,
           saleSubtotal sale + saleTax sale⟩ ∧
    st'.sales = st.sales ++ [(genId st.nextId, saleDoc sale)] := by
  cases hval : validateSaleItems st (sale.items.map processSaleItem) with
  | error e =>
    rw [create_sale_validation_error ((validate_map_process st sale.items) ▸ hval)] at h
    injection h with h1 h2
    cases h2
  | ok u =>
    replace h : (match saleMutate (genId st.nextId) (insertSale st (saleDoc sale)).1
          (sale.items.map processSaleItem) with
        | (st2, some e) => (st2, Except.error e)
        | (st2, none) =>
          (st2, Except.ok (⟨genId st.nextId, saleSubtotal sale, saleTax sale,
            saleSubtotal sale + saleTax sale⟩ : LedgerResult))) = (st', .ok res) := by
      rw [← h]
      conv_rhs => unfold create_sale
      rw [hval]
      rfl
    rw [saleMutate_map_process] at h
    cases hm : saleMutate (genId st.nextId) (insertSale st (saleDoc sale)).1 sale.items with
    | mk st2 err =>
      rw [hm] at h
      cases err with
      | some e =>
        injection h with h1 h2
        cases h2
      | none =>
        injection h with h1 h2
        injection h2 with h3
        constructor
        · exact h3.symm
        · rw [← h1]
          have := saleMutate_sales (genId st.nextId) (insertSale st (saleDoc sale)).1 sale.items
          rw [hm] at this
          exact this

theorem create_purchase_ok_inv {st st' : Store} {p : Purchase} {res : LedgerResult}
    (h : create_purchase st p = (st', .ok res)) :
    res = ⟨genId st.nextId, purchaseSubtotal p, purchaseTax p,
           purchaseSubtotal p + purchaseTax p⟩ ∧
    st'.purchases = st.purchases ++ [(genId st.nextId, purchaseDoc p)] := by
  replace h : (match purchaseMutate (genId st.nextId) (insertPurchase st (purchaseDoc p)).1
        (p.items.map processPurchaseItem) with
      | (st2, some e) => (st2, Except.error e)
      | (st2, none) =>
        (st2, Except.ok (⟨genId st.nextId, purchaseSubtotal p, purchaseTax p,
          purchaseSubtotal p + purchaseTax p⟩ : LedgerResult))) = (st', .ok res) := h
  rw [purchaseMutate_map_process] at h
  cases hm : purchaseMutate (genId st.nextId) (insertPurchase st (purchaseDoc p)).1 p.items with
  | mk st2 err =>
    rw [hm] at h
    cases err with
    | some e =>
      injection h with h1 h2
      cases h2
    | none =>
      injection h with h1 h2
      injection h2 with h3
      refine ⟨h3.symm, ?_⟩
      rw [← h1]
      have := purchaseMutate_purchases (genId st.nextId)
        (insertPurchase st (purchaseDoc p)).1 p.items
      rw [hm] at this
      exact this

/-- Every item of the fixture sale passes the validation pass on the fixture
store. -/
theorem wSaleOk_items_ok : ∀ it ∈ wSaleOk.items, SaleItemOK wStore it := by
  intro it hit
  rw [show wSaleOk.items = [{ product_id := wPid1, quantity := 3, price := 5 }] from rfl,
    List.mem_singleton] at hit
  subst hit
  exact ⟨by decide, wProd1, by decide, by decide⟩

theorem wPurchase_wf : ∀ it ∈ wPurchase.items, isValidObjectId it.product_id = true := by
  decide

/-! ### Claim theorems -/

/-- C1: split a Sale draft at the first failing item (every earlier item
passes validation, the failing item's product id well formed): when that
item references a product id with no matching product, `RecordSale` fails
with `ProductNotFound` naming that id; when its quantity exceeds the
referenced product's stock, `RecordSale` fails with `InsufficientStock`
naming the product — in both cases with no writes, the store returned
unchanged. -/
theorem c1_sale_prevalidation_aborts_without_writes (st : Store) (sale : Sale)
    (pre : List SaleItem) (bad : SaleItem) (rest : List SaleItem)
    (hitems : sale.items = pre ++ bad :: rest)
    (h_pre : ∀ it ∈ pre, SaleItemOK st it)
    (h_wf : isValidObjectId bad.product_id = true) :
    (dbFindProduct st (normId bad.product_id) = none →
       create_sale st sale = (st, .error (.productNotFound bad.product_id))) ∧
    (∀ prod, dbFindProduct st (normId bad.product_id) = some prod →
       prod.quantity < bad.quantity →
       create_sale st sale = (st, .error (.insufficientStock prod.name))) := by
  constructor
  · intro hnone
    apply create_sale_validation_error
    rw [hitems]
    exact (validate_append_fail st pre bad rest h_pre h_wf).1 hnone
  · intro prod hfind hlt
    apply create_sale_validation_error
    rw [hitems]
    exact (validate_append_fail st pre bad rest h_pre h_wf).2 prod hfind hlt

/-- Witness for C1: a sale referencing a well-formed but absent product id
fails with `ProductNotFound` naming that id, and a sale asking for 30 units
of a product holding 10 fails with `InsufficientStock` naming it; neither
changes the store. -/
theorem c1_witness :
    create_sale wStore wSaleMissing = (wStore, .error (.productNotFound wPid3)) ∧
    create_sale wStore wSaleShort = (wStore, .error (.insufficientStock wProd1.name)) :=
  ⟨(c1_sale_prevalidation_aborts_without_writes wStore wSaleMissing []
      { product_id := wPid3, quantity := 1, price := 5 } [] rfl
      (by intro it hit; cases hit) (by decide)).1 (by decide),
   (c1_sale_prevalidation_aborts_without_writes wStore wSaleShort []
      { product_id := wPid1, quantity := 30, price := 5 } [] rfl
      (by intro it hit; cases hit) (by decide)).2 wProd1 (by decide) (by decide)⟩

/-- C2: on a valid Sale draft (each item's product exists with enough stock,
items referencing pairwise-distinct products), `RecordSale` succeeds, stores
the sale, appends exactly one movement per item in order — `type = "sale"`,
`quantity_change = -quantity`, `reason = "Sale"`, `ref_id` the new sale id —
and decrements each referenced product's quantity by the item's quantity. -/
theorem c2_sale_decrements_stock_and_logs_movements (st : Store) (sale : Sale)
    (h_ok : ∀ it ∈ sale.items, SaleItemOK st it)
    (h_nd : (sale.items.map (fun it => normId it.product_id)).Nodup) :
    ∃ res : LedgerResult,
      (create_sale st sale).2 = .ok res ∧
      (create_sale st sale).1.sales = st.sales ++ [(res.id, saleDoc sale)] ∧
      (create_sale st sale).1.stockmovements.map Prod.snd =
        st.stockmovements.map Prod.snd ++ sale.items.map (mkSaleMovement res.id) ∧
      (∀ it ∈ sale.items, (mkSaleMovement res.id it).quantity_change = -it.quantity ∧
          (mkSaleMovement res.id it).type = "sale" ∧
          (mkSaleMovement res.id it).reason = some "Sale" ∧
          (mkSaleMovement res.id it).ref_id = some res.id) ∧
      ∀ it ∈ sale.items, ∀ prod,
        dbFindProduct st (normId it.product_id) = some prod →
        dbFindProduct (create_sale st sale).1 (normId it.product_id) =
          some { prod with quantity := prod.quantity - it.quantity } := by
  have h_wf : ∀ it ∈ sale.items, isValidObjectId it.product_id = true :=
    fun it h => (h_ok it h).1
  rw [create_sale_eq_ok h_ok]
  refine ⟨⟨genId st.nextId, saleSubtotal sale, saleTax sale,
    saleSubtotal sale + saleTax sale⟩, rfl, ?_, ?_, ?_, ?_⟩
  · rw [saleMutate_sales]
    rfl
  · rw [saleMutate_movements (genId st.nextId) sale.items _ h_wf]
    rfl
  · intro it hit
    exact ⟨rfl, rfl, rfl, rfl⟩
  · intro it hit prod hfind
    have hfind1 : dbFindProduct (insertSale st (saleDoc sale)).1 (normId it.product_id) =
        some prod := hfind
    have := saleMutate_find_mem (genId st.nextId) sale.items _ h_wf h_nd it hit prod hfind1
    simpa [sub_eq_add_neg] using this

/-- Witness for C2: selling 3 of 10 Widgets. -/
theorem c2_witness :
    ∃ res : LedgerResult,
      (create_sale wStore wSaleOk).2 = .ok res ∧
      (create_sale wStore wSaleOk).1.sales = wStore.sales ++ [(res.id, saleDoc wSaleOk)] ∧
      (create_sale wStore wSaleOk).1.stockmovements.map Prod.snd =
        wStore.stockmovements.map Prod.snd ++ wSaleOk.items.map (mkSaleMovement res.id) ∧
      (∀ it ∈ wSaleOk.items, (mkSaleMovement res.id it).quantity_change = -it.quantity ∧
          (mkSaleMovement res.id it).type = "sale" ∧
          (mkSaleMovement res.id it).reason = some "Sale" ∧
          (mkSaleMovement res.id it).ref_id = some res.id) ∧
      ∀ it ∈ wSaleOk.items, ∀ prod,
        dbFindProduct wStore (normId it.product_id) = some prod →
        dbFindProduct (create_sale wStore wSaleOk).1 (normId it.product_id) =
          some { prod with quantity := prod.quantity - it.quantity } :=
  c2_sale_decrements_stock_and_logs_movements wStore wSaleOk wSaleOk_items_ok (by decide)

/-- C3: whenever `RecordSale` / `RecordPurchase` accepts a draft, the
returned subtotal is the sum of the items' line totals, the total is
subtotal plus tax (tax taken as 0 when absent), and the persisted document
carries exactly these values. -/
theorem c3_totals_law :
    (∀ (st st' : Store) (sale : Sale) (res : LedgerResult),
        create_sale st sale = (st', .ok res) →
        res.subtotal = (sale.items.map saleLineTotal).sum ∧
        res.tax = saleTax sale ∧
        res.total = res.subtotal + res.tax ∧
        (st'.sales.map Prod.snd).getLast? = some (saleDoc sale) ∧
        (saleDoc sale).subtotal = some res.subtotal ∧
        (saleDoc sale).total = some res.total) ∧
    (∀ (st st' : Store) (p : Purchase) (res : LedgerResult),
        create_purchase st p = (st', .ok res) →
        res.subtotal = (p.items.map purchaseLineTotal).sum ∧
        res.tax = purchaseTax p ∧
        res.total = res.subtotal + res.tax ∧
        (st'.purchases.map Prod.snd).getLast? = some (purchaseDoc p) ∧
        (purchaseDoc p).subtotal = some res.subtotal ∧
        (purchaseDoc p).total = some res.total) := by
  constructor
  · intro st st' sale res h
    obtain ⟨hres, hsales⟩ := create_sale_ok_inv h
    subst hres
    refine ⟨saleSubtotal_eq_sum sale, rfl, rfl, ?_, rfl, rfl⟩
    rw [hsales, List.map_append]
    simp [List.getLast?_concat]
  · intro st st' p res h
    obtain ⟨hres, hpurch⟩ := create_purchase_ok_inv h
    subst hres
    refine ⟨purchaseSubtotal_eq_sum p, rfl, rfl, ?_, rfl, rfl⟩
    rw [hpurch, List.map_append]
    simp [List.getLast?_concat]

/-- Witness for C3: the fixture sale and purchase, with the results computed
by the handlers. -/
theorem c3_witness :
    (wResSale.subtotal = (wSaleOk.items.map saleLineTotal).sum ∧
     wResSale.tax = saleTax wSaleOk ∧
     wResSale.total = wResSale.subtotal + wResSale.tax ∧
     (wStoreSale.sales.map Prod.snd).getLast? = some (saleDoc wSaleOk) ∧
     (saleDoc wSaleOk).subtotal = some wResSale.subtotal ∧
     (saleDoc wSaleOk).total = some wResSale.total) ∧
    (wResPurchase.subtotal = (wPurchase.items.map purchaseLineTotal).sum ∧
     wResPurchase.tax = purchaseTax wPurchase ∧
     wResPurchase.total = wResPurchase.subtotal + wResPurchase.tax ∧
     (wStorePurchase.purchases.map Prod.snd).getLast? = some (purchaseDoc wPurchase) ∧
     (purchaseDoc wPurchase).subtotal = some wResPurchase.subtotal ∧
     (purchaseDoc wPurchase).total = some wResPurchase.total) :=
  ⟨c3_totals_law.1 wStore wStoreSale wSaleOk wResSale
      (create_sale_eq_ok wSaleOk_items_ok),
   c3_totals_law.2 wStore wStorePurchase wPurchase wResPurchase
      (create_purchase_eq_ok wPurchase_wf)⟩

/-- C4: an item's precomputed `line_total` is preserved verbatim (even when
it differs from quantity times price) and flows into the subtotal; an absent
`line_total` is computed as quantity times price (sale) or quantity times
cost (purchase). -/
theorem c4_line_total_preserved :
    (∀ (it : SaleItem) (v : Rat), it.line_total = some v → saleLineTotal it = v) ∧
    (∀ it : SaleItem, it.line_total = none →
        saleLineTotal it = (it.quantity : Rat) * it.price) ∧
    (∀ it : SaleItem, processSaleItem it = { it with line_total := some (saleLineTotal it) }) ∧
    (∀ (it : PurchaseItem) (v : Rat), it.line_total = some v → purchaseLineTotal it = v) ∧
    (∀ it : PurchaseItem, it.line_total = none →
        purchaseLineTotal it = (it.quantity : Rat) * it.cost) ∧
    (∀ (st st' : Store) (sale : Sale) (res : LedgerResult),
        create_sale st sale = (st', .ok res) →
        (saleDoc sale).items = sale.items.map processSaleItem ∧
        res.subtotal = (sale.items.map saleLineTotal).sum) ∧
    (∀ (st st' : Store) (p : Purchase) (res : LedgerResult),
        create_purchase st p = (st', .ok res) →
        (purchaseDoc p).items = p.items.map processPurchaseItem ∧
        res.subtotal = (p.items.map purchaseLineTotal).sum) := by
  refine ⟨?_, ?_, ?_, ?_, ?_, ?_, ?_⟩
  · intro it v h
    unfold saleLineTotal
    rw [h]
    rfl
  · intro it h
    unfold saleLineTotal
    rw [h]
    rfl
  · intro it
    rfl
  · intro it v h
    unfold purchaseLineTotal
    rw [h]
    rfl
  · intro it h
    unfold purchaseLineTotal
    rw [h]
    rfl
  · intro st st' sale res h
    obtain ⟨hres, _⟩ := create_sale_ok_inv h
    subst hres
    exact ⟨rfl, saleSubtotal_eq_sum sale⟩
  · intro st st' p res h
    obtain ⟨hres, _⟩ := create_purchase_ok_inv h
    subst hres
    exact ⟨rfl, purchaseSubtotal_eq_sum p⟩

/-- Witness for C4: a precomputed `line_total` of 999 (far from 3 times 5)
passes through unchanged; an absent one is computed. -/
theorem c4_witness :
    saleLineTotal wItemDiv = 999 ∧
    saleLineTotal wItemNone = (wItemNone.quantity : Rat) * wItemNone.price ∧
    purchaseLineTotal wPItemDiv = 777 ∧
    purchaseLineTotal wPItemNone = (wPItemNone.quantity : Rat) * wPItemNone.cost ∧
    ((saleDoc wSaleOk).items = wSaleOk.items.map processSaleItem ∧
      wResSale.subtotal = (wSaleOk.items.map saleLineTotal).sum) ∧
    ((purchaseDoc wPurchase).items = wPurchase.items.map processPurchaseItem ∧
      wResPurchase.subtotal = (wPurchase.items.map purchaseLineTotal).sum) :=
  ⟨c4_line_total_preserved.1 wItemDiv 999 rfl,
   c4_line_total_preserved.2.1 wItemNone rfl,
   c4_line_total_preserved.2.2.2.1 wPItemDiv 777 rfl,
   c4_line_total_preserved.2.2.2.2.1 wPItemNone rfl,
   c4_line_total_preserved.2.2.2.2.2.1 wStore wStoreSale wSaleOk wResSale
     (create_sale_eq_ok wSaleOk_items_ok),
   c4_line_total_preserved.2.2.2.2.2.2 wStore wStorePurchase wPurchase wResPurchase
     (create_purchase_eq_ok wPurchase_wf)⟩

/-- C5: on a Purchase draft (well-formed ids, quantities at least 1,
pairwise-distinct product references), `RecordPurchase` succeeds, stores the
purchase, appends one positive `purchase` movement per item referencing the
new purchase id, increments each existing referenced product's quantity by
the item's quantity, and treats an increment against a nonexistent product
id as a no-op write. -/
theorem c5_purchase_increments_stock_and_logs_movements (st : Store) (p : Purchase)
    (h_wf : ∀ it ∈ p.items, isValidObjectId it.product_id = true)
    (h_q : ∀ it ∈ p.items, 1 ≤ it.quantity)
    (h_nd : (p.items.map (fun it => normId it.product_id)).Nodup) :
    ∃ res : LedgerResult,
      (create_purchase st p).2 = .ok res ∧
      (create_purchase st p).1.purchases = st.purchases ++ [(res.id, purchaseDoc p)] ∧
      (create_purchase st p).1.stockmovements.map Prod.snd =
        st.stockmovements.map Prod.snd ++ p.items.map (mkPurchaseMovement res.id) ∧
      (∀ it ∈ p.items, (mkPurchaseMovement res.id it).type = "purchase" ∧
          0 < (mkPurchaseMovement res.id it).quantity_change ∧
          (mkPurchaseMovement res.id it).ref_id = some res.id) ∧
      (∀ it ∈ p.items, ∀ prod, dbFindProduct st (normId it.product_id) = some prod →
          dbFindProduct (create_purchase st p).1 (normId it.product_id) =
            some { prod with quantity := prod.quantity + it.quantity }) ∧
      (∀ it ∈ p.items, dbFindProduct st (normId it.product_id) = none →
          dbFindProduct (create_purchase st p).1 (normId it.product_id) = none) := by
  rw [create_purchase_eq_ok h_wf]
  refine ⟨⟨genId st.nextId, purchaseSubtotal p, purchaseTax p,
    purchaseSubtotal p + purchaseTax p⟩, rfl, ?_, ?_, ?_, ?_, ?_⟩
  · rw [purchaseMutate_purchases]
    rfl
  · rw [purchaseMutate_movements (genId st.nextId) p.items _ h_wf]
    rfl
  · intro it hit
    refine ⟨rfl, ?_, rfl⟩
    have := h_q it hit
    show 0 < it.quantity
    omega
  · intro it hit prod hfind
    have hfind1 : dbFindProduct (insertPurchase st (purchaseDoc p)).1 (normId it.product_id) =
        some prod := hfind
    exact purchaseMutate_find_mem (genId st.nextId) p.items _ h_wf h_nd it hit prod hfind1
  · intro it hit hnone
    have hnone1 : dbFindProduct (insertPurchase st (purchaseDoc p)).1 (normId it.product_id) =
        none := hnone
    exact purchaseMutate_find_none (genId st.nextId) p.items _ hnone1

/-- Witness for C5: restocking 2 Widgets plus 5 units of a well-formed but
nonexistent product id. -/
theorem c5_witness :
    ∃ res : LedgerResult,
      (create_purchase wStore wPurchase).2 = .ok res ∧
      (create_purchase wStore wPurchase).1.purchases =
        wStore.purchases ++ [(res.id, purchaseDoc wPurchase)] ∧
      (create_purchase wStore wPurchase).1.stockmovements.map Prod.snd =
        wStore.stockmovements.map Prod.snd ++ wPurchase.items.map (mkPurchaseMovement res.id) ∧
      (∀ it ∈ wPurchase.items, (mkPurchaseMovement res.id it).type = "purchase" ∧
          0 < (mkPurchaseMovement res.id it).quantity_change ∧
          (mkPurchaseMovement res.id it).ref_id = some res.id) ∧
      (∀ it ∈ wPurchase.items, ∀ prod,
          dbFindProduct wStore (normId it.product_id) = some prod →
          dbFindProduct (create_purchase wStore wPurchase).1 (normId it.product_id) =
            some { prod with quantity := prod.quantity + it.quantity }) ∧
      (∀ it ∈ wPurchase.items, dbFindProduct wStore (normId it.product_id) = none →
          dbFindProduct (create_purchase wStore wPurchase).1 (normId it.product_id) = none) :=
  c5_purchase_increments_stock_and_logs_movements wStore wPurchase wPurchase_wf
    (by decide) (by decide)

/-- C6: creating a product whose sku is already stored fails with
`DuplicateSKU` and leaves the store unchanged; with a fresh sku the product
is inserted and its new id returned. -/
theorem c6_duplicate_sku_rejected (st : Store) (p : Product) :
    ((∃ pr ∈ st.products, pr.2.sku = p.sku) →
        create_product st p = (st, .error .duplicateSku)) ∧
    ((∀ pr ∈ st.products, pr.2.sku ≠ p.sku) →
        create_product st p =
          ({ st with products := st.products ++ [(genId st.nextId, p)],
                     nextId := st.nextId + 1 }, .ok (genId st.nextId))) := by
  constructor
  · intro hdup
    have hsome : (st.products.find? (fun pr => pr.2.sku == p.sku)).isSome := by
      rw [List.find?_isSome]
      obtain ⟨pr, hpr, hsku⟩ := hdup
      exact ⟨pr, hpr, by simp [hsku]⟩
    unfold create_product
    cases hf : st.products.find? (fun pr => pr.2.sku == p.sku) with
    | none =>
      rw [hf] at hsome
      simp at hsome
    | some pr => rfl
  · intro hnone
    have hf : st.products.find? (fun pr => pr.2.sku == p.sku) = none := by
      rw [List.find?_eq_none]
      intro pr hpr
      simp [hnone pr hpr]
    unfold create_product
    rw [hf]
    rfl

/-- Witness for C6: a clone of SKU1 is rejected with the store unchanged; a
fresh SKU9 product is inserted. -/
theorem c6_witness :
    create_product wStore wProdDup = (wStore, .error .duplicateSku) ∧
    create_product wStore wProdNew =
      ({ wStore with products := wStore.products ++ [(genId wStore.nextId, wProdNew)],
                     nextId := wStore.nextId + 1 }, .ok (genId wStore.nextId)) :=
  ⟨(c6_duplicate_sku_rejected wStore wProdDup).1 ⟨(wPid1, wProd1), by decide, by decide⟩,
   (c6_duplicate_sku_rejected wStore wProdNew).2 (by decide)⟩

/-- C7: listing products with a search term returns exactly the stored
products matching the term case-insensitively as a substring of name, sku,
or category, truncated to at most `limit` results (default 100). -/
theorem c7_list_products_search (st : Store) (qs : String) (limit : Nat) :
    list_products st (some qs) limit =
      (st.products.filter (fun pr => matchesQuery qs pr.2)).take limit ∧
    (∀ pr : String × Product,
        pr ∈ st.products.filter (fun pr => matchesQuery qs pr.2) ↔
          pr ∈ st.products ∧ SpecProductMatch qs pr.2) ∧
    (list_products st (some qs) limit).length ≤ limit ∧
    list_products st (some qs) =
      (st.products.filter (fun pr => matchesQuery qs pr.2)).take 100 := by
  have hfilter : ∀ lim : Nat, list_products st (some qs) lim =
      (st.products.filter (fun pr => matchesQuery qs pr.2)).take lim := by
    intro lim
    show (if qs.isEmpty then st.products
        else st.products.filter (fun pr => matchesQuery qs pr.2)).take lim = _
    by_cases hq : qs.isEmpty = true
    · rw [if_pos hq, (String.isEmpty_iff qs).mp hq,
        List.filter_eq_self.mpr (fun pr _ => matchesQuery_empty pr.2)]
    · rw [if_neg hq]
  refine ⟨hfilter limit, ?_, ?_, hfilter 100⟩
  · intro pr
    simp [List.mem_filter, matchesQuery_iff]
  · rw [hfilter limit, List.length_take]
    exact min_le_left _ _

/-- C8 counterexample: `DuplicateSKU` and `InsufficientStock` are raised with
status 400, the same status as the bad-request class (invalid id format), so
the conflict class is not distinct from the bad-request class. -/
theorem c8_conflict_class_not_distinct :
    statusCode ApiError.duplicateSku = statusCode ApiError.invalidId ∧
    statusCode (ApiError.insufficientStock "Widget") = statusCode ApiError.invalidId ∧
    statusCode ApiError.duplicateSku = 400 :=
  ⟨rfl, rfl, rfl⟩

/-- C8 amended: `DuplicateSKU` and `InsufficientStock` are reported with the
same bad-request status 400 as the invalid-identifier and `ProductNotFound`
errors — the conflict class is not distinct from the bad-request class —
while `NotFound` is reported in the distinct not-found class (404). -/
theorem c8_amended_status_classes :
    statusCode ApiError.duplicateSku = 400 ∧
    statusCode (ApiError.insufficientStock "Widget") = 400 ∧
    statusCode (ApiError.productNotFound "p") = 400 ∧
    statusCode ApiError.invalidId = 400 ∧
    statusCode ApiError.notFound = 404 ∧
    statusCode ApiError.notFound ≠ statusCode ApiError.duplicateSku := by
  refine ⟨rfl, rfl, rfl, rfl, rfl, ?_⟩
  decide

/-- C9: caller-supplied subtotal/total in a Sale or Purchase draft are
ignored: the handler's output does not depend on them, and the persisted and
returned values are the computed ones. -/
theorem c9_caller_totals_overwritten :
    (∀ (st : Store) (sale : Sale) (s0 t0 : Option Rat),
        create_sale st { sale with subtotal := s0, total := t0 } = create_sale st sale) ∧
    (∀ (st : Store) (p : Purchase) (s0 t0 : Option Rat),
        create_purchase st { p with subtotal := s0, total := t0 } = create_purchase st p) ∧
    (∀ (st st' : Store) (sale : Sale) (res : LedgerResult),
        create_sale st sale = (st', .ok res) →
        res.subtotal = saleSubtotal sale ∧ res.total = saleSubtotal sale + saleTax sale ∧
        (st'.sales.map Prod.snd).getLast? = some (saleDoc sale) ∧
        (saleDoc sale).subtotal = some (saleSubtotal sale) ∧
        (saleDoc sale).total = some (saleSubtotal sale + saleTax sale)) ∧
    (∀ (st st' : Store) (p : Purchase) (res : LedgerResult),
        create_purchase st p = (st', .ok res) →
        res.subtotal = purchaseSubtotal p ∧
        res.total = purchaseSubtotal p + purchaseTax p ∧
        (st'.purchases.map Prod.snd).getLast? = some (purchaseDoc p) ∧
        (purchaseDoc p).subtotal = some (purchaseSubtotal p) ∧
        (purchaseDoc p).total = some (purchaseSubtotal p + purchaseTax p)) := by
  refine ⟨?_, ?_, ?_, ?_⟩
  · intro st sale s0 t0
    rfl
  · intro st p s0 t0
    rfl
  · intro st st' sale res h
    obtain ⟨hres, hsales⟩ := create_sale_ok_inv h
    subst hres
    refine ⟨rfl, rfl, ?_, rfl, rfl⟩
    rw [hsales, List.map_append]
    simp [List.getLast?_concat]
  · intro st st' p res h
    obtain ⟨hres, hpurch⟩ := create_purchase_ok_inv h
    subst hres
    refine ⟨rfl, rfl, ?_, rfl, rfl⟩
    rw [hpurch, List.map_append]
    simp [List.getLast?_concat]

/-- Witness for C9: the fixture sale and purchase persist and return exactly
the computed totals. -/
theorem c9_witness :
    (wResSale.subtotal = saleSubtotal wSaleOk ∧
     wResSale.total = saleSubtotal wSaleOk + saleTax wSaleOk ∧
     (wStoreSale.sales.map Prod.snd).getLast? = some (saleDoc wSaleOk) ∧
     (saleDoc wSaleOk).subtotal = some (saleSubtotal wSaleOk) ∧
     (saleDoc wSaleOk).total = some (saleSubtotal wSaleOk + saleTax wSaleOk)) ∧
    (wResPurchase.subtotal = purchaseSubtotal wPurchase ∧
     wResPurchase.total = purchaseSubtotal wPurchase + purchaseTax wPurchase ∧
     (wStorePurchase.purchases.map Prod.snd).getLast? = some (purchaseDoc wPurchase) ∧
     (purchaseDoc wPurchase).subtotal = some (purchaseSubtotal wPurchase) ∧
     (purchaseDoc wPurchase).total = some (purchaseSubtotal wPurchase + purchaseTax wPurchase)) :=
  ⟨c9_caller_totals_overwritten.2.2.1 wStore wStoreSale wSaleOk wResSale
      (create_sale_eq_ok wSaleOk_items_ok),
   c9_caller_totals_overwritten.2.2.2 wStore wStorePurchase wPurchase wResPurchase
      (create_purchase_eq_ok wPurchase_wf)⟩

/-- C10: an ill-formed product id makes `RecordPurchase` fail only inside the
mutation loop — the purchase document and the increments and movements of all
earlier items are already written — whereas `RecordSale` rejects it in the
read-only validation pass, before any write. -/
theorem c10_invalid_id_timing :
    (∀ (st : Store) (p : Purchase) (pre : List PurchaseItem) (bad : PurchaseItem)
        (rest : List PurchaseItem),
        p.items = pre ++ bad :: rest →
        (∀ it ∈ pre, isValidObjectId it.product_id = true) →
        isValidObjectId bad.product_id = false →
        (pre.map (fun it => normId it.product_id)).Nodup →
        (create_purchase st p).2 = .error .invalidId ∧
        ∃ pid, (create_purchase st p).1.purchases =
            st.purchases ++ [(pid, purchaseDoc p)] ∧
          (create_purchase st p).1.stockmovements.map Prod.snd =
            st.stockmovements.map Prod.snd ++ pre.map (mkPurchaseMovement pid) ∧
          (∀ it ∈ pre, ∀ prod, dbFindProduct st (normId it.product_id) = some prod →
              dbFindProduct (create_purchase st p).1 (normId it.product_id) =
                some { prod with quantity := prod.quantity + it.quantity })) ∧
    (∀ (st : Store) (s : Sale) (pre : List SaleItem) (bad : SaleItem)
        (rest : List SaleItem),
        s.items = pre ++ bad :: rest →
        (∀ it ∈ pre, SaleItemOK st it) →
        isValidObjectId bad.product_id = false →
        create_sale st s = (st, .error .invalidId)) := by
  constructor
  · intro st p pre bad rest hitems h_wf hbad h_nd
    rw [create_purchase_invalid hitems h_wf hbad]
    refine ⟨rfl, genId st.nextId, ?_, ?_, ?_⟩
    · rw [purchaseMutate_purchases]
      rfl
    · rw [purchaseMutate_movements (genId st.nextId) pre _ h_wf]
      rfl
    · intro it hit prod hfind
      have hfind1 : dbFindProduct (insertPurchase st (purchaseDoc p)).1
          (normId it.product_id) = some prod := hfind
      exact purchaseMutate_find_mem (genId st.nextId) pre _ h_wf h_nd it hit prod hfind1
  · intro st s pre bad rest hitems h_ok hbad
    apply create_sale_validation_error
    rw [hitems]
    exact validate_append_invalid st pre rest h_ok hbad

/-- Witness for C10: a purchase whose second item has the ill-formed id "zz"
keeps its document and the first item's writes; the analogous sale is
rejected with the store untouched. -/
theorem c10_witness :
    ((create_purchase wStore wPurchaseInvalid).2 = .error .invalidId ∧
     ∃ pid, (create_purchase wStore wPurchaseInvalid).1.purchases =
         wStore.purchases ++ [(pid, purchaseDoc wPurchaseInvalid)] ∧
       (create_purchase wStore wPurchaseInvalid).1.stockmovements.map Prod.snd =
         wStore.stockmovements.map Prod.snd ++
           ([{ product_id := wPid1, quantity := 2, cost := 1 }] :
             List PurchaseItem).map (mkPurchaseMovement pid) ∧
       (∀ it ∈ ([{ product_id := wPid1, quantity := 2, cost := 1 }] : List PurchaseItem),
           ∀ prod, dbFindProduct wStore (normId it.product_id) = some prod →
           dbFindProduct (create_purchase wStore wPurchaseInvalid).1 (normId it.product_id) =
             some { prod with quantity := prod.quantity + it.quantity })) ∧
    create_sale wStore wSaleInvalid = (wStore, .error .invalidId) :=
  ⟨c10_invalid_id_timing.1 wStore wPurchaseInvalid
      [{ product_id := wPid1, quantity := 2, cost := 1 }]
      { product_id := wBadId, quantity := 1, cost := 1 } [] rfl (by decide) (by decide)
      (by decide),
   c10_invalid_id_timing.2 wStore wSaleInvalid
      [{ product_id := wPid1, quantity := 3, price := 5 }]
      { product_id := wBadId, quantity := 1, price := 1 } [] rfl
      (by
        intro it hit
        rw [List.mem_singleton] at hit
        subst hit
        exact ⟨by decide, wProd1, by decide, by decide⟩)
      (by decide)⟩

end ShopERP